import Mathlib

/-!
Verification of the prompt evaluation and tagging pipeline
(`src/aiEvaluator.ts` of the repository under review).

The external OpenAI chat-completion call is the only effectful part of the
pipeline.  It is modelled by an oracle value describing the outcome of that
call as seen by the surrounding code:

* the response content can be absent (`noContent`, the `!responseContent`
  throw),
* the content can fail `JSON.parse` (`notJson`),
* the parsed JSON value can fail to have the structural shape of the scoring
  object at all (`badShape`, part of `scoringSchema.parse` throwing), or
* it can be a structurally shaped object (`parsed raw`), in which case the
  value-level checks of the zod schema (numeric ranges, array bound and
  enumeration membership) are carried out by `scoringSchemaParse` below.

JavaScript numbers occurring in responses are modelled as rationals (`ℚ`).
JavaScript plain objects used as string-keyed counters are modelled in two
stages: the own-property store is an insertion-ordered association list
(`bump` models the `obj[k] = (obj[k] || 0) + 1` update), and `jsEntries`
models the enumeration order of `Object.entries`, which lists canonical
array-index keys first in ascending numeric order and only then the other
string keys in insertion order.  The store model is faithful for keys that do
not collide with `Object.prototype` properties; for colliding keys (such as
`"toString"`, whose inherited read makes the "count" a concatenated string,
or `"__proto__"`, whose write is swallowed by the prototype setter) the real
values are implementation-dependent non-numbers, so the statements about
arbitrary tag keys are scoped by an explicit hypothesis excluding them.
-/

namespace AiEvaluator

/-- Enumeration `['creative', 'technical', 'business', 'educational', 'other']`
from `scoringSchema.category`. -/
inductive Category where
  | creative
  | technical
  | business
  | educational
  | other
deriving DecidableEq, Repr

/-- Enumeration `['beginner', 'intermediate', 'advanced']` from
`scoringSchema.complexity`. -/
inductive Complexity where
  | beginner
  | intermediate
  | advanced
deriving DecidableEq, Repr

/-- The `reasoning` object of a `PromptScore`: four required string fields. -/
structure Reasoning where
  clarity : String
  «structure» : String
  usefulness : String
  overall : String
deriving DecidableEq, Repr

/-- `PromptScore = z.infer<typeof scoringSchema>`: the validated evaluation
outcome for one content item.  `estimatedTokens` is optional
(`z.number().optional()`). -/
structure PromptScore where
  clarity : ℚ
  «structure» : ℚ
  usefulness : ℚ
  overall : ℚ
  reasoning : Reasoning
  suggestedTags : List String
  category : Category
  complexity : Complexity
  estimatedTokens : Option ℚ
deriving DecidableEq, Repr

/-- A JSON value that already has the structural shape of the scoring object
(all required fields present with the right primitive types), before the
value-level checks of the zod schema.  `category` and `complexity` are still
raw strings here; `scoringSchemaParse` checks them against the enumerations. -/
structure RawScore where
  clarity : ℚ
  «structure» : ℚ
  usefulness : ℚ
  overall : ℚ
  reasoning : Reasoning
  suggestedTags : List String
  category : String
  complexity : String
  estimatedTokens : Option ℚ
deriving DecidableEq, Repr

/-- `z.enum(['creative', 'technical', 'business', 'educational', 'other'])`. -/
def parseCategory (s : String) : Option Category :=
  if s = "creative" then some Category.creative
  else if s = "technical" then some Category.technical
  else if s = "business" then some Category.business
  else if s = "educational" then some Category.educational
  else if s = "other" then some Category.other
  else none

/-- `z.enum(['beginner', 'intermediate', 'advanced'])`. -/
def parseComplexity (s : String) : Option Complexity :=
  if s = "beginner" then some Complexity.beginner
  else if s = "intermediate" then some Complexity.intermediate
  else if s = "advanced" then some Complexity.advanced
  else none

/-- Value-level part of `scoringSchema.parse`: each of the four scores is a
number with `.min(1).max(10)` (inclusive bounds, no integrality check),
`suggestedTags` is `z.array(z.string()).max(10)`, `category` and `complexity`
are zod enumerations, and `estimatedTokens` is an unconstrained optional
number.  On success the validated data is returned unchanged. -/
def scoringSchemaParse (r : RawScore) : Option PromptScore :=
  match parseCategory r.category, parseComplexity r.complexity with
  | some cat, some comp =>
    if 1 ≤ r.clarity ∧ r.clarity ≤ 10 ∧
        1 ≤ r.«structure» ∧ r.«structure» ≤ 10 ∧
        1 ≤ r.usefulness ∧ r.usefulness ≤ 10 ∧
        1 ≤ r.overall ∧ r.overall ≤ 10 ∧
        r.suggestedTags.length ≤ 10 then
      some
        { clarity := r.clarity
          «structure» := r.«structure»
          usefulness := r.usefulness
          overall := r.overall
          reasoning := r.reasoning
          suggestedTags := r.suggestedTags
          category := cat
          complexity := comp
          estimatedTokens := r.estimatedTokens }
    else none
  | _, _ => none

/-- Outcome of the external scoring call, as observed by `evaluatePrompt`. -/
inductive EvalOutcome where
  | noContent
  | notJson
  | badShape
  | parsed (raw : RawScore)
deriving Repr

/-- The deterministic fallback `PromptScore` returned by `evaluatePrompt` from
its `catch` block.  `estimatedTokens` is back-filled as
`Math.ceil(promptContent.length / 4)`. -/
def fallbackScore (promptContent : String) : PromptScore :=
  { clarity := 5
    «structure» := 5
    usefulness := 5
    overall := 5
    reasoning :=
      { clarity := "Evaluation failed - default score assigned"
        «structure» := "Evaluation failed - default score assigned"
        usefulness := "Evaluation failed - default score assigned"
        overall := "Evaluation failed - default score assigned" }
    suggestedTags := ["untagged"]
    category := Category.other
    complexity := Complexity.intermediate
    estimatedTokens := some ((⌈(promptContent.length : ℚ) / 4⌉ : ℤ) : ℚ) }

/-- `evaluatePrompt`: the whole body is wrapped in `try ... catch`; a missing
response content, a `JSON.parse` failure or a `scoringSchema.parse` failure
all land in the `catch` block, which returns `fallbackScore`.  A successful
schema validation returns the validated score unchanged. -/
def evaluatePrompt (promptContent : String) (title description : Option String)
    (outcome : EvalOutcome) : PromptScore :=
  match outcome with
  | EvalOutcome.parsed raw =>
    match scoringSchemaParse raw with
    | some validatedScore => validatedScore
    | none => fallbackScore promptContent
  | _ => fallbackScore promptContent

/-- Decidable test for the outcomes that make `evaluatePrompt` take its
`catch` branch. -/
def evalCallFails (outcome : EvalOutcome) : Bool :=
  match outcome with
  | EvalOutcome.parsed raw => (scoringSchemaParse raw).isNone
  | _ => true

/-- `AutoTagResult = z.infer<typeof autoTagSchema>`. -/
structure AutoTagResult where
  tags : List String
  confidence : ℚ
  reasoning : String
deriving DecidableEq, Repr

/-- A JSON value with the structural shape of the auto-tag object, before the
value-level checks of `autoTagSchema`. -/
structure RawAutoTag where
  tags : List String
  confidence : ℚ
  reasoning : String
deriving DecidableEq, Repr

/-- Value-level part of `autoTagSchema.parse`: `tags` is
`z.array(z.string()).max(10)` and `confidence` is `z.number().min(0).max(1)`. -/
def autoTagSchemaParse (r : RawAutoTag) : Option AutoTagResult :=
  if r.tags.length ≤ 10 ∧ 0 ≤ r.confidence ∧ r.confidence ≤ 1 then
    some { tags := r.tags, confidence := r.confidence, reasoning := r.reasoning }
  else none

/-- Outcome of the external tagging call, as observed by `generateAutoTags`. -/
inductive TagOutcome where
  | noContent
  | notJson
  | badShape
  | parsed (raw : RawAutoTag)
deriving Repr

/-- The deterministic fallback `AutoTagResult` returned by `generateAutoTags`
from its `catch` block. -/
def fallbackAutoTag : AutoTagResult :=
  { tags := ["prompt", "untagged"]
    confidence := 1 / 10
    reasoning := "Auto-tagging failed - default tags assigned" }

/-- `generateAutoTags`: same `try ... catch` shape as `evaluatePrompt`, with
`fallbackAutoTag` returned on any failure. -/
def generateAutoTags (promptContent : String) (title description : Option String)
    (outcome : TagOutcome) : AutoTagResult :=
  match outcome with
  | TagOutcome.parsed raw =>
    match autoTagSchemaParse raw with
    | some validatedResult => validatedResult
    | none => fallbackAutoTag
  | _ => fallbackAutoTag

/-- Decidable test for the outcomes that make `generateAutoTags` take its
`catch` branch. -/
def tagCallFails (outcome : TagOutcome) : Bool :=
  match outcome with
  | TagOutcome.parsed raw => (autoTagSchemaParse raw).isNone
  | _ => true

/-- One element of the input array of `batchEvaluatePrompts`. -/
structure BatchItem where
  content : String
  title : Option String
  description : Option String
  id : String
deriving DecidableEq, Repr

/-- One element of the result array of `batchEvaluatePrompts`
(`{ id: string; score: PromptScore; error?: string }`). -/
structure BatchResult where
  id : String
  score : PromptScore
  error : Option String
deriving DecidableEq, Repr

/-- Behaviour of the evaluation of one batch item: either the inner
`evaluatePrompt` call completes (with some external-call outcome), or the
whole awaited expression throws and the orchestrator's per-item `catch`
captures the error message. -/
inductive ItemBehavior where
  | completes (outcome : EvalOutcome)
  | throws (msg : String)
deriving Repr

/-- The pessimistic per-item score substituted by the `catch` inside
`batchEvaluatePrompts`.  Its object literal has no `estimatedTokens` field. -/
def batchErrorScore : PromptScore :=
  { clarity := 1
    «structure» := 1
    usefulness := 1
    overall := 1
    reasoning :=
      { clarity := "Evaluation failed"
        «structure» := "Evaluation failed"
        usefulness := "Evaluation failed"
        overall := "Evaluation failed" }
    suggestedTags := ["error"]
    category := Category.other
    complexity := Complexity.intermediate
    estimatedTokens := none }

/-- The per-item mapper inside a window: on completion, the result carries the
score returned by `evaluatePrompt` and no `error` field; on a throw, the
result carries `batchErrorScore` and the captured error message. -/
def runBatchItem (p : BatchItem) (b : ItemBehavior) : BatchResult :=
  match b with
  | ItemBehavior.completes outcome =>
    { id := p.id
      score := evaluatePrompt p.content p.title p.description outcome
      error := none }
  | ItemBehavior.throws msg =>
    { id := p.id, score := batchErrorScore, error := some msg }

/-- Observable scheduling events of the orchestrator: issuing one evaluation
call, or the fixed 1-second inter-window pause. -/
inductive BatchEvent where
  | call (id : String)
  | delay
deriving DecidableEq, Repr

/-- Test for the inter-window pause event. -/
def isDelay (e : BatchEvent) : Bool :=
  match e with
  | BatchEvent.delay => true
  | BatchEvent.call _ => false

/-- `const batchSize = 5`. -/
def batchSize : Nat := 5

/-- Map with the absolute item index, starting at `i` (used to thread the
per-item behaviour oracle through the windows). -/
def mapIdxFrom {α β : Type} (f : Nat → α → β) : Nat → List α → List β
  | _, [] => []
  | i, x :: xs => f i x :: mapIdxFrom f (i + 1) xs

/-- The `for (let i = 0; i < prompts.length; i += batchSize)` loop of
`batchEvaluatePrompts`: take the window `prompts.slice(i, i + batchSize)`,
issue one evaluation call per item, append the window results, and sleep for
1 second when `i + batchSize < prompts.length`.  The second component records
the issued calls and pauses in order. -/
def batchEvaluateGo (behavior : Nat → ItemBehavior) (prompts : List BatchItem)
    (i : Nat) : List BatchResult × List BatchEvent :=
  if h : i < prompts.length then
    let batch := (prompts.drop i).take batchSize
    let batchResults := mapIdxFrom (fun k p => runBatchItem p (behavior k)) i batch
    let rest := batchEvaluateGo behavior prompts (i + batchSize)
    (batchResults ++ rest.1,
      batch.map (fun p => BatchEvent.call p.id)
        ++ (if i + batchSize < prompts.length then [BatchEvent.delay] else [])
        ++ rest.2)
  else ([], [])
termination_by prompts.length - i
decreasing_by simp [batchSize]; omega

/-- `batchEvaluatePrompts`, returning the result array together with the
ordered trace of issued calls and inter-window pauses. -/
def batchEvaluatePrompts (behavior : Nat → ItemBehavior)
    (prompts : List BatchItem) : List BatchResult × List BatchEvent :=
  batchEvaluateGo behavior prompts 0

/-- Contiguous windows of `batchSize` items, the last window possibly
smaller (the spec's partition of the input into windows). -/
def chunksOf {α : Type} : List α → List (List α)
  | [] => []
  | x :: xs => ((x :: xs).take batchSize) :: chunksOf ((x :: xs).drop batchSize)
termination_by l => l.length
decreasing_by simp [batchSize, List.length_drop]; omega

/-- The event trace the spec describes: the calls of each window in order,
with one pause between consecutive windows and none after the last. -/
def windowTrace : List (List BatchItem) → List BatchEvent
  | [] => []
  | [c] => c.map (fun p => BatchEvent.call p.id)
  | c :: c' :: rest =>
    c.map (fun p => BatchEvent.call p.id) ++ [BatchEvent.delay]
      ++ windowTrace (c' :: rest)

/-- `Math.floor((value - 1) / 2) * 2 + 1` and `... + 2` joined by `-`:
the histogram bucket label template of `calculateScoringStats`. -/
def bucketLabel (k : ℤ) : String := toString (k * 2 + 1) ++ "-" ++ toString (k * 2 + 2)

/-- The bucket label assigned to one dimension value by
`calculateScoringStats`. -/
def scoreRange (v : ℚ) : String := bucketLabel ⌊(v - 1) / 2⌋

/-- The five bucket labels covering the 1–10 score range. -/
def scoreBuckets : List String := ["1-2", "3-4", "5-6", "7-8", "9-10"]

/-- `obj[key] = (obj[key] || 0) + 1` on a string-keyed counter object,
modelled on the insertion-ordered own-property store: the first entry with
the key is incremented, a missing key is appended with count 1.  This is the
JavaScript behaviour for every key that does not collide with an
`Object.prototype` property; for colliding keys (`"toString"`,
`"__proto__"`, …) the real object yields corrupted or dropped values, so
statements about arbitrary keys carry a hypothesis excluding
`objectProtoKeys`. -/
def bump (m : List (String × Nat)) (k : String) : List (String × Nat) :=
  match m with
  | [] => [(k, 1)]
  | e :: rest => if e.1 = k then (e.1, e.2 + 1) :: rest else e :: bump rest k

/-- The `averages` record of `calculateScoringStats`. -/
structure Averages where
  clarity : ℚ
  «structure» : ℚ
  usefulness : ℚ
  overall : ℚ
deriving DecidableEq, Repr

/-- The `distributions` record of `calculateScoringStats`: one counter object
per dimension. -/
structure Distributions where
  clarity : List (String × Nat)
  «structure» : List (String × Nat)
  usefulness : List (String × Nat)
  overall : List (String × Nat)
deriving DecidableEq, Repr

/-- Return type of `calculateScoringStats`.  `topTags` entries are
`{ tag, count }` pairs; `categoryDistribution` is a counter object keyed by
the category's string name. -/
structure ScoringStats where
  averages : Averages
  distributions : Distributions
  topTags : List (String × Nat)
  categoryDistribution : List (String × Nat)
deriving DecidableEq, Repr

/-- String name of a `Category` value (the key used by
`categoryDistribution`). -/
def categoryName (c : Category) : String :=
  match c with
  | Category.creative => "creative"
  | Category.technical => "technical"
  | Category.business => "business"
  | Category.educational => "educational"
  | Category.other => "other"

/-- Numeric value of a digit string (the chars are assumed to be digits). -/
def digitsVal (cs : List Char) : Nat :=
  cs.foldl (fun n c => n * 10 + (c.toNat - 48)) 0

/-- ECMAScript array-index key test: a canonical numeric string (digits with
no leading zero except `"0"` itself) whose value is at most `2^32 - 2`.
`Object.entries` enumerates these keys first, in ascending numeric order. -/
def isArrayIndexKey (s : String) : Bool :=
  match s.data with
  | [] => false
  | c :: cs =>
    (c :: cs).all Char.isDigit && (c != '0' || cs.isEmpty) &&
      digitsVal (c :: cs) ≤ 4294967294

/-- Ascending insertion by the numeric value of the key (used for the
array-index keys, which are pairwise distinct as object keys). -/
def insertIdxAsc (x : String × Nat) : List (String × Nat) → List (String × Nat)
  | [] => [x]
  | y :: ys =>
    if digitsVal y.1.data ≤ digitsVal x.1.data then y :: insertIdxAsc x ys
    else x :: y :: ys

/-- Sort of array-index entries ascending by numeric key value. -/
def sortIdxAsc (l : List (String × Nat)) : List (String × Nat) :=
  l.foldl (fun acc x => insertIdxAsc x acc) []

/-- `Object.entries` on the own-property store: canonical array-index keys
first in ascending numeric order, then the remaining string keys in
insertion order. -/
def jsEntries (m : List (String × Nat)) : List (String × Nat) :=
  sortIdxAsc (m.filter (fun e => isArrayIndexKey e.1))
    ++ m.filter (fun e => !isArrayIndexKey e.1)

/-- The property names of `Object.prototype`: keys whose counter reads hit
the prototype chain in the real code, corrupting or dropping the count. -/
def objectProtoKeys : List String :=
  ["constructor", "hasOwnProperty", "isPrototypeOf", "propertyIsEnumerable",
    "toLocaleString", "toString", "valueOf", "__proto__",
    "__defineGetter__", "__defineSetter__", "__lookupGetter__",
    "__lookupSetter__"]

/-- Stable descending insertion by count: the new entry goes after every
entry whose count is greater than or equal to its own.  This is the unique
stable result of `.sort((a, b) => b.count - a.count)` on an array of
`{ tag, count }` entries. -/
def insertTagDesc (x : String × Nat) : List (String × Nat) → List (String × Nat)
  | [] => [x]
  | y :: ys => if x.2 ≤ y.2 then y :: insertTagDesc x ys else x :: y :: ys

/-- Stable sort of tag-count entries, descending by count. -/
def sortByCountDesc (l : List (String × Nat)) : List (String × Nat) :=
  l.foldl (fun acc x => insertTagDesc x acc) []

/-- Body of the `scores.forEach` loop filling the four histogram objects:
each dimension value's bucket label is bumped in the matching counter. -/
def distStep (d : Distributions) (s : PromptScore) : Distributions :=
  { clarity := bump d.clarity (scoreRange s.clarity)
    «structure» := bump d.«structure» (scoreRange s.«structure»)
    usefulness := bump d.usefulness (scoreRange s.usefulness)
    overall := bump d.overall (scoreRange s.overall) }

/-- Body of the `scores.forEach` loop filling `tagCounts`: every tag of the
item is bumped in turn. -/
def tagStep (m : List (String × Nat)) (s : PromptScore) : List (String × Nat) :=
  s.suggestedTags.foldl bump m

/-- Body of the `scores.forEach` loop filling `categoryDistribution`. -/
def catStep (m : List (String × Nat)) (s : PromptScore) : List (String × Nat) :=
  bump m (categoryName s.category)

/-- `calculateScoringStats`: empty input returns the all-zero record;
otherwise averages are `reduce`-sums divided by the length, the four
distributions bump the bucket label of each dimension value, `topTags` sorts
the `Object.entries` enumeration of the flattened tag counts descending and
keeps 20, and `categoryDistribution` bumps each item's category name. -/
def calculateScoringStats (scores : List PromptScore) : ScoringStats :=
  if scores.length = 0 then
    { averages := { clarity := 0, «structure» := 0, usefulness := 0, overall := 0 }
      distributions := { clarity := [], «structure» := [], usefulness := [], overall := [] }
      topTags := []
      categoryDistribution := [] }
  else
    let n : ℚ := (scores.length : ℚ)
    let averages : Averages :=
      { clarity := (scores.foldl (fun sum s => sum + s.clarity) 0) / n
        «structure» := (scores.foldl (fun sum s => sum + s.«structure») 0) / n
        usefulness := (scores.foldl (fun sum s => sum + s.usefulness) 0) / n
        overall := (scores.foldl (fun sum s => sum + s.overall) 0) / n }
    let distributions : Distributions :=
      scores.foldl distStep
        { clarity := [], «structure» := [], usefulness := [], overall := [] }
    let tagCounts : List (String × Nat) := scores.foldl tagStep []
    let topTags := (sortByCountDesc (jsEntries tagCounts)).take 20
    let categoryDistribution := scores.foldl catStep []
    { averages := averages
      distributions := distributions
      topTags := topTags
      categoryDistribution := categoryDistribution }

/-- First occurrence of every string in the list, in first-seen order. -/
def firstSeen : List String → List String
  | [] => []
  | x :: xs => x :: firstSeen (xs.filter (fun t => t ≠ x))
termination_by l => l.length
decreasing_by
  have := List.length_filter_le (fun t => t ≠ x) xs
  simp at this ⊢
  omega

/-- Every item's `suggestedTags`, flattened in input order. -/
def allTags (scores : List PromptScore) : List String :=
  (scores.map (fun s => s.suggestedTags)).flatten

/-- Tag-count entries as described by the spec for `topTags`: one entry per
distinct tag in first-encountered order, counting its occurrences in the
flattened tag list. -/
def firstSeenCounts (l : List String) : List (String × Nat) :=
  (firstSeen l).map (fun t => (t, l.count t))

/-! ### Helper lemmas about schema validation -/

/-- Unpacking of a successful `scoringSchemaParse`: the validated score copies
every field of the raw object (with the enum strings resolved), and the checked
bounds hold. -/
theorem scoringSchemaParse_some_spec (raw : RawScore) (s : PromptScore)
    (h : scoringSchemaParse raw = some s) :
    s.clarity = raw.clarity ∧ s.«structure» = raw.«structure» ∧
    s.usefulness = raw.usefulness ∧ s.overall = raw.overall ∧
    s.reasoning = raw.reasoning ∧ s.suggestedTags = raw.suggestedTags ∧
    s.estimatedTokens = raw.estimatedTokens ∧
    parseCategory raw.category = some s.category ∧
    parseComplexity raw.complexity = some s.complexity ∧
    (1 ≤ s.clarity ∧ s.clarity ≤ 10) ∧ (1 ≤ s.«structure» ∧ s.«structure» ≤ 10) ∧
    (1 ≤ s.usefulness ∧ s.usefulness ≤ 10) ∧ (1 ≤ s.overall ∧ s.overall ≤ 10) ∧
    s.suggestedTags.length ≤ 10 := by
  unfold scoringSchemaParse at h
  cases hc : parseCategory raw.category with
  | none => rw [hc] at h; exact absurd h (by simp)
  | some cat =>
    cases hx : parseComplexity raw.complexity with
    | none => rw [hc, hx] at h; exact absurd h (by simp)
    | some comp =>
      rw [hc, hx, Option.ite_none_right_eq_some, Option.some.injEq] at h
      obtain ⟨⟨h1, h2, h3, h4, h5, h6, h7, h8, h9⟩, heq⟩ := h
      subst heq
      exact ⟨rfl, rfl, rfl, rfl, rfl, rfl, rfl, rfl, rfl,
        ⟨h1, h2⟩, ⟨h3, h4⟩, ⟨h5, h6⟩, ⟨h7, h8⟩, h9⟩

/-- On any failing outcome, `evaluatePrompt` returns exactly the fallback. -/
theorem evaluatePrompt_of_fails (promptContent : String)
    (title description : Option String) (outcome : EvalOutcome)
    (h : evalCallFails outcome = true) :
    evaluatePrompt promptContent title description outcome =
      fallbackScore promptContent := by
  cases outcome with
  | parsed raw =>
    cases hp : scoringSchemaParse raw with
    | some s =>
      exfalso
      simp [evalCallFails, hp] at h
    | none => simp [evaluatePrompt, hp]
  | noContent => rfl
  | notJson => rfl
  | badShape => rfl

/-! ### C1 -/

/-- C1: `evaluatePrompt` never raises to its caller — it is a total function —
and on any failure of the external call (missing response content, non-JSON
body, or schema-validation failure) it returns the deterministic fallback
`PromptScore`: all four scores 5, every reasoning string the fixed
"Evaluation failed - default score assigned" literal,
`suggestedTags = ["untagged"]`, `category = "other"`,
`complexity = "intermediate"`, and
`estimatedTokens = ceil(length(content) / 4)`, which is 0 for empty
content. -/
theorem C1_evaluatePrompt_failure_fallback (promptContent : String)
    (title description : Option String) (outcome : EvalOutcome)
    (h : evalCallFails outcome = true) :
    evaluatePrompt promptContent title description outcome =
      fallbackScore promptContent ∧
    fallbackScore promptContent =
      { clarity := 5
        «structure» := 5
        usefulness := 5
        overall := 5
        reasoning :=
          { clarity := "Evaluation failed - default score assigned"
            «structure» := "Evaluation failed - default score assigned"
            usefulness := "Evaluation failed - default score assigned"
            overall := "Evaluation failed - default score assigned" }
        suggestedTags := ["untagged"]
        category := Category.other
        complexity := Complexity.intermediate
        estimatedTokens := some ((⌈(promptContent.length : ℚ) / 4⌉ : ℤ) : ℚ) } ∧
    (fallbackScore "").estimatedTokens = some 0 := by
  refine ⟨evaluatePrompt_of_fails promptContent title description outcome h, rfl, ?_⟩
  show some ((⌈(("".length : ℕ) : ℚ) / 4⌉ : ℤ) : ℚ) = some 0
  norm_num

/-- Witness for C1 at empty content and a missing-response outcome. -/
theorem C1_evaluatePrompt_failure_fallback_witness :
    evaluatePrompt "" none none EvalOutcome.noContent = fallbackScore "" ∧
    (fallbackScore "").estimatedTokens = some 0 :=
  ⟨(C1_evaluatePrompt_failure_fallback "" none none EvalOutcome.noContent rfl).1,
    (C1_evaluatePrompt_failure_fallback "" none none EvalOutcome.noContent rfl).2.2⟩

/-! ### C4 -/

/-- C4: whenever the external response content parses as a JSON object that
passes the scoring schema, `evaluatePrompt` returns exactly the validated
data — every field copied from the response, with no range violations. -/
theorem C4_evaluatePrompt_valid_passthrough (promptContent : String)
    (title description : Option String) (raw : RawScore) (s : PromptScore)
    (h : scoringSchemaParse raw = some s) :
    evaluatePrompt promptContent title description (EvalOutcome.parsed raw) = s ∧
    s.clarity = raw.clarity ∧ s.«structure» = raw.«structure» ∧
    s.usefulness = raw.usefulness ∧ s.overall = raw.overall ∧
    s.reasoning = raw.reasoning ∧ s.suggestedTags = raw.suggestedTags ∧
    s.estimatedTokens = raw.estimatedTokens ∧
    parseCategory raw.category = some s.category ∧
    parseComplexity raw.complexity = some s.complexity ∧
    (1 ≤ s.clarity ∧ s.clarity ≤ 10) ∧ (1 ≤ s.«structure» ∧ s.«structure» ≤ 10) ∧
    (1 ≤ s.usefulness ∧ s.usefulness ≤ 10) ∧ (1 ≤ s.overall ∧ s.overall ≤ 10) := by
  have hspec := scoringSchemaParse_some_spec raw s h
  refine ⟨by simp [evaluatePrompt, h], ?_⟩
  exact ⟨hspec.1, hspec.2.1, hspec.2.2.1, hspec.2.2.2.1, hspec.2.2.2.2.1,
    hspec.2.2.2.2.2.1, hspec.2.2.2.2.2.2.1, hspec.2.2.2.2.2.2.2.1,
    hspec.2.2.2.2.2.2.2.2.1, hspec.2.2.2.2.2.2.2.2.2.1,
    hspec.2.2.2.2.2.2.2.2.2.2.1, hspec.2.2.2.2.2.2.2.2.2.2.2.1,
    hspec.2.2.2.2.2.2.2.2.2.2.2.2.1⟩

/-- A concrete structurally valid response used to witness C4. -/
def sampleRaw : RawScore :=
  { clarity := 8
    «structure» := 7
    usefulness := 9
    overall := 8
    reasoning := { clarity := "a", «structure» := "b", usefulness := "c", overall := "d" }
    suggestedTags := ["coding", "analysis"]
    category := "technical"
    complexity := "advanced"
    estimatedTokens := some 42 }

/-- The validated score corresponding to `sampleRaw`. -/
def sampleScore : PromptScore :=
  { clarity := 8
    «structure» := 7
    usefulness := 9
    overall := 8
    reasoning := { clarity := "a", «structure» := "b", usefulness := "c", overall := "d" }
    suggestedTags := ["coding", "analysis"]
    category := Category.technical
    complexity := Complexity.advanced
    estimatedTokens := some 42 }

/-- Witness for C4 on the concrete valid response `sampleRaw`. -/
theorem C4_evaluatePrompt_valid_passthrough_witness :
    evaluatePrompt "p" none none (EvalOutcome.parsed sampleRaw) = sampleScore :=
  (C4_evaluatePrompt_valid_passthrough "p" none none sampleRaw sampleScore
    (by decide)).1

/-! ### C5 -/

/-- A structurally valid response whose `clarity` is `5.5`: the zod schema
checks only `.min(1).max(10)` on `z.number()`, with no integrality
requirement, so this passes validation. -/
def nonIntegerRaw : RawScore :=
  { clarity := 11 / 2
    «structure» := 5
    usefulness := 5
    overall := 5
    reasoning := { clarity := "a", «structure» := "b", usefulness := "c", overall := "d" }
    suggestedTags := []
    category := "other"
    complexity := "beginner"
    estimatedTokens := none }

/-- C5 counterexample: the pipeline can produce a `PromptScore` whose
`clarity` is `5.5`, not an integer — `scoringSchema` uses
`z.number().min(1).max(10)` without `.int()`, so a non-integral score passes
validation and is returned unchanged. -/
theorem C5_counterexample_non_integer_score :
    (evaluatePrompt "p" none none (EvalOutcome.parsed nonIntegerRaw)).clarity = 11 / 2 ∧
    ¬ ∃ n : ℤ,
      (evaluatePrompt "p" none none (EvalOutcome.parsed nonIntegerRaw)).clarity = (n : ℚ) := by
  have hcat : parseCategory "other" = some Category.other := by decide
  have hcomp : parseComplexity "beginner" = some Complexity.beginner := by decide
  have hparse : scoringSchemaParse nonIntegerRaw =
      some
        { clarity := 11 / 2
          «structure» := 5
          usefulness := 5
          overall := 5
          reasoning := { clarity := "a", «structure» := "b", usefulness := "c", overall := "d" }
          suggestedTags := []
          category := Category.other
          complexity := Complexity.beginner
          estimatedTokens := none } := by
    simp only [scoringSchemaParse, nonIntegerRaw]
    rw [hcat, hcomp]
    norm_num
  have hval : (evaluatePrompt "p" none none (EvalOutcome.parsed nonIntegerRaw)).clarity
      = 11 / 2 := by
    simp [evaluatePrompt, hparse]
  refine ⟨hval, ?_⟩
  rintro ⟨n, hn⟩
  rw [hval] at hn
  have h2 : (11 : ℚ) = 2 * (n : ℚ) := by
    field_simp at hn
    linarith
  have h3 : (11 : ℤ) = 2 * n := by exact_mod_cast h2
  omega

/-- The amended well-formedness predicate for C5: the four numeric scores are
populated numbers in the closed range `[1, 10]` (not necessarily integers),
and `category` and `complexity` are drawn from their enumerations. -/
def ScoreWellFormed (s : PromptScore) : Prop :=
  (1 ≤ s.clarity ∧ s.clarity ≤ 10) ∧ (1 ≤ s.«structure» ∧ s.«structure» ≤ 10) ∧
  (1 ≤ s.usefulness ∧ s.usefulness ≤ 10) ∧ (1 ≤ s.overall ∧ s.overall ≤ 10) ∧
  s.category ∈ [Category.creative, Category.technical, Category.business,
    Category.educational, Category.other] ∧
  s.complexity ∈ [Complexity.beginner, Complexity.intermediate, Complexity.advanced]

/-- C5 (amended): every `PromptScore` produced by the pipeline — a validated
external response, the `evaluatePrompt` fallback, or the batch error
fallback — has all four numeric scores populated as numbers in `[1, 10]`
(integrality is not guaranteed), and `category` and `complexity` equal to one
of their fixed enumerated values. -/
theorem C5_amended_pipeline_scores_well_formed (promptContent : String)
    (title description : Option String) (outcome : EvalOutcome) :
    ScoreWellFormed (evaluatePrompt promptContent title description outcome) ∧
    ScoreWellFormed (fallbackScore promptContent) ∧
    ScoreWellFormed batchErrorScore := by
  have hfb : ScoreWellFormed (fallbackScore promptContent) := by
    refine ⟨⟨?_, ?_⟩, ⟨?_, ?_⟩, ⟨?_, ?_⟩, ⟨?_, ?_⟩, ?_, ?_⟩ <;>
      simp [fallbackScore] <;> norm_num
  have hbe : ScoreWellFormed batchErrorScore := by
    refine ⟨⟨?_, ?_⟩, ⟨?_, ?_⟩, ⟨?_, ?_⟩, ⟨?_, ?_⟩, ?_, ?_⟩ <;>
      simp [batchErrorScore]
  refine ⟨?_, hfb, hbe⟩
  cases outcome with
  | parsed raw =>
    cases hp : scoringSchemaParse raw with
    | some s =>
      have hspec := scoringSchemaParse_some_spec raw s hp
      have hev : evaluatePrompt promptContent title description
          (EvalOutcome.parsed raw) = s := by simp [evaluatePrompt, hp]
      rw [hev]
      refine ⟨hspec.2.2.2.2.2.2.2.2.2.1, hspec.2.2.2.2.2.2.2.2.2.2.1,
        hspec.2.2.2.2.2.2.2.2.2.2.2.1, hspec.2.2.2.2.2.2.2.2.2.2.2.2.1, ?_, ?_⟩
      · cases s.category <;> simp
      · cases s.complexity <;> simp
    | none =>
      have hev : evaluatePrompt promptContent title description
          (EvalOutcome.parsed raw) = fallbackScore promptContent := by
        simp [evaluatePrompt, hp]
      rw [hev]; exact hfb
  | noContent => exact hfb
  | notJson => exact hfb
  | badShape => exact hfb

/-! ### C9 -/

/-- On any failing outcome, `generateAutoTags` returns exactly the fallback. -/
theorem generateAutoTags_of_fails (promptContent : String)
    (title description : Option String) (outcome : TagOutcome)
    (h : tagCallFails outcome = true) :
    generateAutoTags promptContent title description outcome = fallbackAutoTag := by
  cases outcome with
  | parsed raw =>
    cases hp : autoTagSchemaParse raw with
    | some r =>
      exfalso
      simp [tagCallFails, hp] at h
    | none => simp [generateAutoTags, hp]
  | noContent => rfl
  | notJson => rfl
  | badShape => rfl

/-- C9: `generateAutoTags` never raises — it is a total function — and on any
failure of the tagging call it returns the fallback `AutoTagResult` with
`tags = ["prompt", "untagged"]`, `confidence = 0.1`, and the fixed
"Auto-tagging failed - default tags assigned" reasoning literal. -/
theorem C9_generateAutoTags_failure_fallback (promptContent : String)
    (title description : Option String) (outcome : TagOutcome)
    (h : tagCallFails outcome = true) :
    generateAutoTags promptContent title description outcome = fallbackAutoTag ∧
    fallbackAutoTag =
      { tags := ["prompt", "untagged"]
        confidence := 1 / 10
        reasoning := "Auto-tagging failed - default tags assigned" } :=
  ⟨generateAutoTags_of_fails promptContent title description outcome h, rfl⟩

/-- Witness for C9 at a non-JSON response outcome. -/
theorem C9_generateAutoTags_failure_fallback_witness :
    generateAutoTags "p" none none TagOutcome.notJson = fallbackAutoTag :=
  (C9_generateAutoTags_failure_fallback "p" none none TagOutcome.notJson rfl).1

/-! ### Helper lemmas about the batch orchestrator -/

theorem mapIdxFrom_length {α β : Type} (f : Nat → α → β) (i : Nat) (l : List α) :
    (mapIdxFrom f i l).length = l.length := by
  induction l generalizing i with
  | nil => rfl
  | cons x xs ih => simp [mapIdxFrom, ih]

theorem mapIdxFrom_append {α β : Type} (f : Nat → α → β) (i : Nat) (a b : List α) :
    mapIdxFrom f i (a ++ b) = mapIdxFrom f i a ++ mapIdxFrom f (i + a.length) b := by
  induction a generalizing i with
  | nil => simp [mapIdxFrom]
  | cons x xs ih =>
    show f i x :: mapIdxFrom f (i + 1) (xs ++ b) =
      (f i x :: mapIdxFrom f (i + 1) xs) ++ mapIdxFrom f (i + (xs.length + 1)) b
    rw [List.cons_append, ih (i + 1)]
    rw [show i + (xs.length + 1) = i + 1 + xs.length by omega]

theorem mapIdxFrom_get? {α β : Type} (f : Nat → α → β) (i j : Nat) (l : List α) :
    (mapIdxFrom f i l).get? j = (l.get? j).map (f (i + j)) := by
  induction l generalizing i j with
  | nil => simp [mapIdxFrom]
  | cons x xs ih =>
    cases j with
    | zero => simp [mapIdxFrom]
    | succ j' =>
      simp only [mapIdxFrom, List.get?_cons_succ, ih]
      rw [show i + (j' + 1) = i + 1 + j' by omega]

theorem mapIdxFrom_map {α β γ : Type} (f : Nat → α → β) (g : β → γ) (h : α → γ)
    (hc : ∀ k x, g (f k x) = h x) (i : Nat) (l : List α) :
    (mapIdxFrom f i l).map g = l.map h := by
  induction l generalizing i with
  | nil => rfl
  | cons x xs ih => simp [mapIdxFrom, hc, ih]

/-- The id of a batch result is always the id of its item, for both the
success and the throw branch. -/
theorem runBatchItem_id (p : BatchItem) (b : ItemBehavior) :
    (runBatchItem p b).id = p.id := by
  cases b <;> rfl

/-- The result array of the window loop is the index-aware map of
`runBatchItem` over the remaining items. -/
theorem batchEvaluateGo_fst (behavior : Nat → ItemBehavior)
    (prompts : List BatchItem) (i : Nat) :
    (batchEvaluateGo behavior prompts i).1 =
      mapIdxFrom (fun k p => runBatchItem p (behavior k)) i (prompts.drop i) := by
  rw [batchEvaluateGo]
  by_cases h : i < prompts.length
  · rw [dif_pos h]
    have ih := batchEvaluateGo_fst behavior prompts (i + batchSize)
    simp only [ih, List.drop_drop]
    by_cases h5 : prompts.length ≤ i + batchSize
    · rw [List.drop_eq_nil_of_le h5]
      have htake : (prompts.drop i).take batchSize = prompts.drop i := by
        apply List.take_of_length_le
        rw [List.length_drop]
        omega
      simp [htake, mapIdxFrom]
    · conv_rhs => rw [← List.take_append_drop batchSize (prompts.drop i)]
      rw [mapIdxFrom_append]
      have hlen : ((prompts.drop i).take batchSize).length = batchSize := by
        simp [List.length_take, List.length_drop]
        omega
      rw [hlen, List.drop_drop]
  · rw [dif_neg h]
    rw [List.drop_eq_nil_of_le (by omega)]
    rfl
termination_by prompts.length - i
decreasing_by simp [batchSize]; omega

/-- `chunksOf` of a nonempty list, without pattern matching on the head. -/
theorem chunksOf_of_ne_nil {α : Type} (l : List α) (h : l ≠ []) :
    chunksOf l = l.take batchSize :: chunksOf (l.drop batchSize) := by
  cases l with
  | nil => exact absurd rfl h
  | cons x xs => rw [chunksOf]

/-- `chunksOf` is empty exactly on the empty list. -/
theorem chunksOf_eq_nil_iff {α : Type} (l : List α) : chunksOf l = [] ↔ l = [] := by
  cases l with
  | nil => simp [chunksOf]
  | cons x xs => rw [chunksOf]; simp

/-- The event trace of the window loop is the delay-separated window trace of
the remaining items. -/
theorem batchEvaluateGo_snd (behavior : Nat → ItemBehavior)
    (prompts : List BatchItem) (i : Nat) :
    (batchEvaluateGo behavior prompts i).2 =
      windowTrace (chunksOf (prompts.drop i)) := by
  rw [batchEvaluateGo]
  by_cases h : i < prompts.length
  · rw [dif_pos h]
    have ih := batchEvaluateGo_snd behavior prompts (i + batchSize)
    have hne : prompts.drop i ≠ [] := by
      intro hnil
      rw [List.drop_eq_nil_iff] at hnil
      omega
    rw [chunksOf_of_ne_nil _ hne, List.drop_drop]
    by_cases h5 : i + batchSize < prompts.length
    · have hcne : chunksOf (prompts.drop (i + batchSize)) ≠ [] := by
        rw [Ne, chunksOf_eq_nil_iff, List.drop_eq_nil_iff]
        omega
      cases hc : chunksOf (prompts.drop (i + batchSize)) with
      | nil => exact absurd hc hcne
      | cons c cs =>
        simp only [windowTrace]
        rw [if_pos h5]
        simp only [ih, List.drop_drop, hc, windowTrace]
    · have hcnil : chunksOf (prompts.drop (i + batchSize)) = [] := by
        rw [chunksOf_eq_nil_iff, List.drop_eq_nil_iff]
        omega
      rw [hcnil]
      simp only [windowTrace]
      rw [if_neg h5]
      simp only [ih, List.drop_drop, hcnil, windowTrace]
      simp
  · rw [dif_neg h]
    rw [List.drop_eq_nil_of_le (by omega)]
    simp [chunksOf, windowTrace]
termination_by prompts.length - i
decreasing_by simp [batchSize]; omega

/-! ### C2 -/

/-- C2: for every input sequence, `batchEvaluatePrompts` returns exactly one
`BatchResult` per input item, in the same relative order (the sequence of
result ids equals the sequence of input ids, so the k-th result carries the
k-th item's id); on the empty input it returns the empty sequence and issues
no evaluation call at all. -/
theorem C2_batch_one_result_per_item_in_order (behavior : Nat → ItemBehavior)
    (prompts : List BatchItem) :
    ((batchEvaluatePrompts behavior prompts).1).map (fun r => r.id) =
      prompts.map (fun p => p.id) ∧
    ((batchEvaluatePrompts behavior prompts).1).length = prompts.length ∧
    (∀ k : Nat,
      (((batchEvaluatePrompts behavior prompts).1).get? k).map (fun r => r.id) =
        (prompts.get? k).map (fun p => p.id)) ∧
    batchEvaluatePrompts behavior [] = ([], []) := by
  have hfst := batchEvaluateGo_fst behavior prompts 0
  rw [List.drop_zero] at hfst
  refine ⟨?_, ?_, ?_, ?_⟩
  · rw [batchEvaluatePrompts, hfst]
    exact mapIdxFrom_map _ _ _ (fun k p => runBatchItem_id p (behavior k)) 0 prompts
  · rw [batchEvaluatePrompts, hfst, mapIdxFrom_length]
  · intro k
    rw [batchEvaluatePrompts, hfst, mapIdxFrom_get?]
    cases prompts.get? k with
    | none => rfl
    | some p => simp [runBatchItem_id]
  · rw [batchEvaluatePrompts, batchEvaluateGo]
    simp

/-! ### C3 -/

/-- C3: if the evaluation of one item throws, the orchestrator substitutes the
pessimistic fallback (`clarity = structure = usefulness = overall = 1`,
`suggestedTags = ["error"]`) for that item with the captured error message,
and completes the batch: the result count is preserved, the other items'
results are exactly what they would be under any behaviour agreeing outside
the failing index, and those other results have no `error` field. -/
theorem C3_batch_per_item_failure_isolation
    (behavior behavior' : Nat → ItemBehavior) (prompts : List BatchItem)
    (k : Nat) (msg : String)
    (hthrow : behavior k = ItemBehavior.throws msg)
    (hcompl : ∀ j, j ≠ k → ∃ oc, behavior j = ItemBehavior.completes oc)
    (hagree : ∀ j, j ≠ k → behavior' j = behavior j) :
    ((batchEvaluatePrompts behavior prompts).1).length = prompts.length ∧
    (∀ p, prompts.get? k = some p →
      ((batchEvaluatePrompts behavior prompts).1).get? k =
        some { id := p.id, score := batchErrorScore, error := some msg }) ∧
    (∀ j, j ≠ k →
      ((batchEvaluatePrompts behavior prompts).1).get? j =
        ((batchEvaluatePrompts behavior' prompts).1).get? j) ∧
    (∀ j, j ≠ k → ∀ r, ((batchEvaluatePrompts behavior prompts).1).get? j = some r →
      r.error = none) := by
  have hfst := batchEvaluateGo_fst behavior prompts 0
  have hfst' := batchEvaluateGo_fst behavior' prompts 0
  rw [List.drop_zero] at hfst hfst'
  refine ⟨?_, ?_, ?_, ?_⟩
  · rw [batchEvaluatePrompts, hfst, mapIdxFrom_length]
  · intro p hp
    rw [batchEvaluatePrompts, hfst, mapIdxFrom_get?, hp]
    simp [runBatchItem, hthrow]
  · intro j hj
    rw [batchEvaluatePrompts, hfst, mapIdxFrom_get?,
      batchEvaluatePrompts, hfst', mapIdxFrom_get?]
    rw [Nat.zero_add, hagree j hj]
  · intro j hj r hr
    rw [batchEvaluatePrompts, hfst, mapIdxFrom_get?] at hr
    obtain ⟨oc, hoc⟩ := hcompl j hj
    cases hp : prompts.get? j with
    | none => rw [hp] at hr; exact absurd hr (by simp)
    | some p =>
      rw [hp] at hr
      have hr' : runBatchItem p (behavior j) = r := by
        rw [Nat.zero_add] at hr
        simpa using hr
      rw [← hr', hoc]
      rfl

/-! ### C6 -/

/-- Call events are never delay events. -/
theorem countP_isDelay_calls (c : List BatchItem) :
    (c.map (fun p => BatchEvent.call p.id)).countP (fun e => isDelay e) = 0 := by
  induction c with
  | nil => rfl
  | cons x xs ih => simp [isDelay, ih]

/-- A single pause counts as one delay event. -/
theorem countP_isDelay_single :
    ([BatchEvent.delay]).countP (fun e => isDelay e) = 1 := by
  simp [isDelay]

/-- C6: the orchestrator partitions the input into contiguous windows of 5
(the last window possibly smaller), issues the calls of each window as one
block — the whole window's calls appear in the trace before anything that
follows — and pauses exactly once between consecutive windows and not after
the last; for a 12-item input this gives three sequential windows of sizes
5, 5, 2 and exactly two inter-window pauses. -/
theorem C6_batch_windows_of_five_with_pauses (behavior : Nat → ItemBehavior)
    (prompts : List BatchItem) :
    (batchEvaluatePrompts behavior prompts).2 = windowTrace (chunksOf prompts) ∧
    (prompts.length = 12 →
      (chunksOf prompts).map List.length = [5, 5, 2] ∧
      ((batchEvaluatePrompts behavior prompts).2).countP (fun e => isDelay e) = 2) := by
  have hsnd := batchEvaluateGo_snd behavior prompts 0
  rw [List.drop_zero] at hsnd
  refine ⟨hsnd, ?_⟩
  intro h12
  have hne1 : prompts ≠ [] := by
    intro hnil; rw [hnil] at h12; simp at h12
  have hne2 : prompts.drop batchSize ≠ [] := by
    rw [Ne, List.drop_eq_nil_iff]
    simp [batchSize]
    omega
  have hne3 : (prompts.drop batchSize).drop batchSize ≠ [] := by
    rw [Ne, List.drop_eq_nil_iff]
    simp [List.length_drop, batchSize]
    omega
  have hnil4 : ((prompts.drop batchSize).drop batchSize).drop batchSize = [] := by
    rw [List.drop_eq_nil_iff]
    simp [List.length_drop, batchSize]
    omega
  have hchunks : chunksOf prompts =
      [prompts.take batchSize, (prompts.drop batchSize).take batchSize,
        ((prompts.drop batchSize).drop batchSize).take batchSize] := by
    have h0 : chunksOf ([] : List BatchItem) = [] := (chunksOf_eq_nil_iff _).mpr rfl
    rw [chunksOf_of_ne_nil _ hne1, chunksOf_of_ne_nil _ hne2,
      chunksOf_of_ne_nil _ hne3, hnil4, h0]
  constructor
  · rw [hchunks]
    simp [List.length_take, List.length_drop, h12, batchSize]
  · rw [batchEvaluatePrompts, hsnd, hchunks]
    simp only [windowTrace]
    simp only [List.countP_append, countP_isDelay_calls, countP_isDelay_single]

/-! ### C10 -/

/-- C10: the pessimistic batch fallback omits `estimatedTokens` entirely,
unlike the `evaluatePrompt` fallback, which always populates it from the
length heuristic; consequently every `BatchResult` whose `error` field is set
carries a score with no `estimatedTokens` value. -/
theorem C10_batch_fallback_omits_estimatedTokens
    (behavior : Nat → ItemBehavior) (prompts : List BatchItem) (j : Nat)
    (r : BatchResult)
    (hr : ((batchEvaluatePrompts behavior prompts).1).get? j = some r)
    (herr : r.error.isSome = true) :
    r.score = batchErrorScore ∧
    r.score.estimatedTokens = none ∧
    batchErrorScore.estimatedTokens = none ∧
    (∀ content : String,
      (fallbackScore content).estimatedTokens =
        some ((⌈(content.length : ℚ) / 4⌉ : ℤ) : ℚ)) := by
  have hfst := batchEvaluateGo_fst behavior prompts 0
  rw [List.drop_zero] at hfst
  rw [batchEvaluatePrompts, hfst, mapIdxFrom_get?] at hr
  cases hp : prompts.get? j with
  | none => rw [hp] at hr; exact absurd hr (by simp)
  | some p =>
    rw [hp] at hr
    have hr' : runBatchItem p (behavior (0 + j)) = r := by simpa using hr
    cases hb : behavior (0 + j) with
    | completes oc =>
      exfalso
      rw [hb] at hr'
      rw [← hr'] at herr
      simp [runBatchItem] at herr
    | throws msg =>
      rw [hb] at hr'
      rw [← hr']
      exact ⟨rfl, rfl, rfl, fun content => rfl⟩

/-! ### Concrete batch scenarios used by the witnesses -/

/-- A two-item batch. -/
def demoPrompts : List BatchItem :=
  [{ content := "c1", title := none, description := none, id := "a" },
    { content := "c2", title := none, description := none, id := "b" }]

/-- Behaviour where the first item's evaluation throws and every other item
completes. -/
def demoBehavior : Nat → ItemBehavior := fun n =>
  if n = 0 then ItemBehavior.throws "boom"
  else ItemBehavior.completes EvalOutcome.noContent

/-- Behaviour where every item completes. -/
def demoBehaviorOk : Nat → ItemBehavior := fun _ =>
  ItemBehavior.completes EvalOutcome.noContent

/-- A twelve-item batch. -/
def demoPrompts12 : List BatchItem :=
  List.replicate 12 { content := "c", title := none, description := none, id := "x" }

/-- Witness for C3 on a two-item batch whose first item throws. -/
theorem C3_batch_per_item_failure_isolation_witness :
    ((batchEvaluatePrompts demoBehavior demoPrompts).1).length = demoPrompts.length ∧
    ((batchEvaluatePrompts demoBehavior demoPrompts).1).get? 0 =
      some { id := "a", score := batchErrorScore, error := some "boom" } := by
  have happ := C3_batch_per_item_failure_isolation demoBehavior demoBehaviorOk
    demoPrompts 0 "boom" rfl
    (fun j hj => ⟨EvalOutcome.noContent, by simp [demoBehavior, hj]⟩)
    (fun j hj => by simp [demoBehavior, demoBehaviorOk, hj])
  exact ⟨happ.1,
    happ.2.1 { content := "c1", title := none, description := none, id := "a" } rfl⟩

/-- Witness for C6 on a twelve-item batch. -/
theorem C6_batch_windows_of_five_with_pauses_witness :
    (chunksOf demoPrompts12).map List.length = [5, 5, 2] ∧
    ((batchEvaluatePrompts demoBehaviorOk demoPrompts12).2).countP
      (fun e => isDelay e) = 2 :=
  (C6_batch_windows_of_five_with_pauses demoBehaviorOk demoPrompts12).2
    (by simp [demoPrompts12])

/-- Witness for C10 on the two-item batch whose first item throws. -/
theorem C10_batch_fallback_omits_estimatedTokens_witness :
    ({ id := "a", score := batchErrorScore, error := some "boom" } :
      BatchResult).score.estimatedTokens = none := by
  have hr : ((batchEvaluatePrompts demoBehavior demoPrompts).1).get? 0 =
      some { id := "a", score := batchErrorScore, error := some "boom" } := by
    simp [batchEvaluatePrompts, batchEvaluateGo, demoPrompts, demoBehavior,
      mapIdxFrom, runBatchItem, batchSize]
  exact (C10_batch_fallback_omits_estimatedTokens demoBehavior demoPrompts 0 _
    hr rfl).2.1

/-! ### Helper lemmas about the histogram buckets -/

/-- On an integer-valued score, the bucket computation is the integer formula
`k = (v - 1) / 2` (integer division being the floor for these values). -/
theorem scoreRange_intCast (v : ℤ) :
    scoreRange (v : ℚ) = bucketLabel ((v - 1) / 2) := by
  unfold scoreRange
  congr 1
  have h : ((v : ℚ) - 1) / 2 = ((v - 1 : ℤ) : ℚ) / ((2 : ℕ) : ℚ) := by
    push_cast
    ring
  rw [h, Rat.floor_intCast_div_natCast]
  norm_num

/-- Integer score values in `[1, 10]` land in one of the five buckets. -/
theorem scoreRange_int_mem (v : ℤ) (h1 : 1 ≤ v) (h2 : v ≤ 10) :
    scoreRange (v : ℚ) ∈ scoreBuckets := by
  rw [scoreRange_intCast]
  interval_cases v <;> decide

/-- Every entry of a bumped counter was already present or has the bumped
key. -/
theorem bump_mem (m : List (String × Nat)) (k : String) (e : String × Nat)
    (h : e ∈ bump m k) : e ∈ m ∨ e.1 = k := by
  induction m with
  | nil =>
    simp [bump] at h
    right
    rw [h]
  | cons f rest ih =>
    rw [bump] at h
    by_cases hf : f.1 = k
    · rw [if_pos hf] at h
      rcases List.mem_cons.mp h with h1 | h1
      · right; rw [h1]; exact hf
      · left; exact List.mem_cons_of_mem f h1
    · rw [if_neg hf] at h
      rcases List.mem_cons.mp h with h1 | h1
      · left; rw [h1]; exact List.mem_cons_self f rest
      · rcases ih h1 with h2 | h2
        · left; exact List.mem_cons_of_mem f h2
        · right; exact h2

/-- All keys of a counter lie in the five bucket labels. -/
def BucketKeys (m : List (String × Nat)) : Prop := ∀ e ∈ m, e.1 ∈ scoreBuckets

/-- A `PromptScore` whose four dimension values are integers in `[1, 10]`. -/
def IntScore (s : PromptScore) : Prop :=
  (∃ v : ℤ, s.clarity = (v : ℚ) ∧ 1 ≤ v ∧ v ≤ 10) ∧
  (∃ v : ℤ, s.«structure» = (v : ℚ) ∧ 1 ≤ v ∧ v ≤ 10) ∧
  (∃ v : ℤ, s.usefulness = (v : ℚ) ∧ 1 ≤ v ∧ v ≤ 10) ∧
  (∃ v : ℤ, s.overall = (v : ℚ) ∧ 1 ≤ v ∧ v ≤ 10)

/-- The histogram fold keeps all keys among the five bucket labels, provided
every score is integer-valued in range. -/
theorem foldl_distStep_keys (scores : List PromptScore) (d : Distributions)
    (hint : ∀ s ∈ scores, IntScore s)
    (h : BucketKeys d.clarity ∧ BucketKeys d.«structure» ∧
      BucketKeys d.usefulness ∧ BucketKeys d.overall) :
    BucketKeys (scores.foldl distStep d).clarity ∧
    BucketKeys (scores.foldl distStep d).«structure» ∧
    BucketKeys (scores.foldl distStep d).usefulness ∧
    BucketKeys (scores.foldl distStep d).overall := by
  induction scores generalizing d with
  | nil => exact h
  | cons s rest ih =>
    rw [List.foldl_cons]
    have hs := hint s (List.mem_cons_self s rest)
    obtain ⟨⟨v1, hv1, hv1a, hv1b⟩, ⟨v2, hv2, hv2a, hv2b⟩,
      ⟨v3, hv3, hv3a, hv3b⟩, ⟨v4, hv4, hv4a, hv4b⟩⟩ := hs
    apply ih (distStep d s) (fun t ht => hint t (List.mem_cons_of_mem s ht))
    refine ⟨?_, ?_, ?_, ?_⟩ <;> intro e he
    · rcases bump_mem _ _ _ he with hm | hk
      · exact h.1 e hm
      · rw [hk, hv1]; exact scoreRange_int_mem v1 hv1a hv1b
    · rcases bump_mem _ _ _ he with hm | hk
      · exact h.2.1 e hm
      · rw [hk, hv2]; exact scoreRange_int_mem v2 hv2a hv2b
    · rcases bump_mem _ _ _ he with hm | hk
      · exact h.2.2.1 e hm
      · rw [hk, hv3]; exact scoreRange_int_mem v3 hv3a hv3b
    · rcases bump_mem _ _ _ he with hm | hk
      · exact h.2.2.2 e hm
      · rw [hk, hv4]; exact scoreRange_int_mem v4 hv4a hv4b

/-! ### C7 -/

/-- C7: the histogram of `calculateScoringStats` assigns each integer
dimension value `v ∈ [1, 10]` the single bucket `"{2k+1}-{2k+2}"` with
`k = floor((v - 1) / 2)`; the five buckets `"1-2" … "9-10"` partition
`[1, 10]` (each value falls in a bucket, and in the bucket `k` exactly when
`2k+1 ≤ v ≤ 2k+2`, so never in two); under the integrality hypothesis all
histogram keys produced are among the five buckets; and the empty collection
yields all-zero averages, empty histograms, an empty tag list and an empty
category distribution, without raising. -/
theorem C7_histogram_buckets_partition (scores : List PromptScore)
    (hint : ∀ s ∈ scores, IntScore s) :
    (∀ v : ℤ, 1 ≤ v → v ≤ 10 →
      scoreRange (v : ℚ) = bucketLabel ((v - 1) / 2) ∧
      scoreRange (v : ℚ) ∈ scoreBuckets) ∧
    (∀ v k : ℤ, 1 ≤ v → v ≤ 10 → 0 ≤ k → k ≤ 4 →
      (scoreRange (v : ℚ) = bucketLabel k ↔ 2 * k + 1 ≤ v ∧ v ≤ 2 * k + 2)) ∧
    (BucketKeys (calculateScoringStats scores).distributions.clarity ∧
      BucketKeys (calculateScoringStats scores).distributions.«structure» ∧
      BucketKeys (calculateScoringStats scores).distributions.usefulness ∧
      BucketKeys (calculateScoringStats scores).distributions.overall) ∧
    calculateScoringStats [] =
      { averages := { clarity := 0, «structure» := 0, usefulness := 0, overall := 0 }
        distributions := { clarity := [], «structure» := [], usefulness := [], overall := [] }
        topTags := []
        categoryDistribution := [] } := by
  refine ⟨?_, ?_, ?_, rfl⟩
  · intro v h1 h2
    exact ⟨scoreRange_intCast v, scoreRange_int_mem v h1 h2⟩
  · intro v k h1 h2 hk1 hk2
    rw [scoreRange_intCast]
    interval_cases v <;> interval_cases k <;> decide
  · by_cases h0 : scores.length = 0
    · have hnil : scores = [] := List.length_eq_zero.mp h0
      subst hnil
      refine ⟨?_, ?_, ?_, ?_⟩ <;> intro e he <;> simp [calculateScoringStats] at he
    · have hd : (calculateScoringStats scores).distributions =
          scores.foldl distStep
            { clarity := [], «structure» := [], usefulness := [], overall := [] } := by
        unfold calculateScoringStats
        rw [if_neg h0]
      rw [hd]
      exact foldl_distStep_keys scores _ hint
        ⟨fun e he => absurd he (List.not_mem_nil e),
          fun e he => absurd he (List.not_mem_nil e),
          fun e he => absurd he (List.not_mem_nil e),
          fun e he => absurd he (List.not_mem_nil e)⟩

/-- Witness for C7 on the singleton collection of the all-ones batch error
score (integer-valued) and a sample value `v = 7`. -/
theorem C7_histogram_buckets_partition_witness :
    (scoreRange ((7 : ℤ) : ℚ) = bucketLabel 3 ∧
      scoreRange ((7 : ℤ) : ℚ) ∈ scoreBuckets) ∧
    BucketKeys (calculateScoringStats [batchErrorScore]).distributions.clarity ∧
    (calculateScoringStats []).topTags = [] := by
  have hint : ∀ s ∈ [batchErrorScore], IntScore s := by
    intro s hs
    rw [List.mem_singleton] at hs
    subst hs
    refine ⟨⟨1, ?_, by decide, by decide⟩, ⟨1, ?_, by decide, by decide⟩,
      ⟨1, ?_, by decide, by decide⟩, ⟨1, ?_, by decide, by decide⟩⟩ <;>
      simp [batchErrorScore]
  have h := C7_histogram_buckets_partition [batchErrorScore] hint
  refine ⟨?_, h.2.2.1.1, ?_⟩
  · have h7 := h.1 7 (by decide) (by decide)
    exact ⟨by rw [h7.1]; decide, h7.2⟩
  · rw [h.2.2.2]

/-! ### Helper lemmas about tag counting -/

/-- Every element of `firstSeen l` occurs in `l`. -/
theorem firstSeen_subset (l : List String) : ∀ t ∈ firstSeen l, t ∈ l := by
  cases l with
  | nil => intro t ht; simp [firstSeen] at ht
  | cons a m =>
    intro t ht
    simp only [firstSeen] at ht
    rcases List.mem_cons.mp ht with h | h
    · rw [h]; exact List.mem_cons_self a m
    · have h1 := firstSeen_subset (m.filter (fun t => t ≠ a)) t h
      exact List.mem_cons_of_mem a (List.mem_filter.mp h1).1
termination_by l.length
decreasing_by
  simp only [List.length_cons]
  exact Nat.lt_succ_of_le (List.length_filter_le _ _)

/-- Unfolding of the canonical tag-count list on a cons. -/
theorem firstSeenCounts_cons (a : String) (m : List String) :
    firstSeenCounts (a :: m) =
      (a, m.count a + 1) :: firstSeenCounts (m.filter (fun t => t ≠ a)) := by
  unfold firstSeenCounts
  simp only [firstSeen, List.map_cons, List.count_cons_self]
  congr 1
  apply List.map_congr_left
  intro t ht
  have htf := firstSeen_subset _ t ht
  have hta : t ≠ a := by simpa using (List.mem_filter.mp htf).2
  have hcf : (m.filter (fun t => t ≠ a)).count t = m.count t :=
    List.count_filter (by simpa using hta)
  rw [List.count_cons_of_ne hta, hcf]

/-- Bumping the canonical tag-count list of `l` with `x` yields the canonical
tag-count list of `l ++ [x]`: the counter object built by repeated `bump`
stays in first-seen order with occurrence counts. -/
theorem bump_firstSeenCounts (l : List String) (x : String) :
    bump (firstSeenCounts l) x = firstSeenCounts (l ++ [x]) := by
  cases l with
  | nil => simp [bump, firstSeenCounts, firstSeen]
  | cons a m =>
    rw [firstSeenCounts_cons]
    by_cases hax : a = x
    · subst hax
      have hcnt : (m ++ [a]).count a = m.count a + 1 := by
        rw [List.count_append, List.count_singleton_self]
      have hflt : (m ++ [a]).filter (fun t => t ≠ a) = m.filter (fun t => t ≠ a) := by
        rw [List.filter_append]
        simp
      rw [show (a :: m) ++ [a] = a :: (m ++ [a]) from rfl, firstSeenCounts_cons,
        hcnt, hflt]
      simp only [bump]
      simp
    · have hxa : x ≠ a := fun h => hax h.symm
      have hcnt : (m ++ [x]).count a = m.count a := by
        rw [List.count_append, List.count_singleton]
        simp [hxa]
      have hflt : (m ++ [x]).filter (fun t => t ≠ a) =
          m.filter (fun t => t ≠ a) ++ [x] := by
        rw [List.filter_append]
        simp [hxa]
      rw [show (a :: m) ++ [x] = a :: (m ++ [x]) from rfl, firstSeenCounts_cons,
        hcnt, hflt]
      simp only [bump]
      rw [if_neg hax]
      congr 1
      exact bump_firstSeenCounts (m.filter (fun t => t ≠ a)) x
termination_by l.length
decreasing_by
  simp only [List.length_cons]
  exact Nat.lt_succ_of_le (List.length_filter_le _ _)

/-- Folding `bump` over a stream extends the canonical tag-count list. -/
theorem foldl_bump_firstSeenCounts (l₂ l₁ : List String) :
    List.foldl bump (firstSeenCounts l₁) l₂ = firstSeenCounts (l₁ ++ l₂) := by
  induction l₂ generalizing l₁ with
  | nil => simp
  | cons x xs ih =>
    rw [List.foldl_cons, bump_firstSeenCounts, ih]
    congr 1
    simp

/-- The counter object built by bumping every element of `l` in order is the
canonical first-seen tag-count list of `l`. -/
theorem foldl_bump_nil (l : List String) :
    List.foldl bump [] l = firstSeenCounts l := by
  have h0 : firstSeenCounts [] = [] := by simp [firstSeenCounts, firstSeen]
  have h := foldl_bump_firstSeenCounts l []
  rw [h0, List.nil_append] at h
  exact h

/-- The per-score tag fold equals the fold over the flattened tag stream. -/
theorem foldl_tagStep_eq (scores : List PromptScore) (m : List (String × Nat)) :
    scores.foldl tagStep m = (allTags scores).foldl bump m := by
  induction scores generalizing m with
  | nil => simp [allTags]
  | cons s rest ih =>
    rw [List.foldl_cons, ih]
    rw [show allTags (s :: rest) = s.suggestedTags ++ allTags rest from by
      simp [allTags]]
    rw [List.foldl_append]
    rfl

/-! ### Helper lemmas about the stable descending sort -/

theorem mem_insertTagDesc (x a : String × Nat) (l : List (String × Nat)) :
    a ∈ insertTagDesc x l ↔ a = x ∨ a ∈ l := by
  induction l with
  | nil => simp [insertTagDesc]
  | cons y ys ih =>
    rw [insertTagDesc]
    by_cases h : x.2 ≤ y.2
    · rw [if_pos h]
      simp only [List.mem_cons, ih]
      tauto
    · rw [if_neg h]
      simp only [List.mem_cons]

theorem insertTagDesc_sorted (x : String × Nat) (l : List (String × Nat))
    (h : List.Pairwise (fun a b => b.2 ≤ a.2) l) :
    List.Pairwise (fun a b => b.2 ≤ a.2) (insertTagDesc x l) := by
  induction l with
  | nil => simp [insertTagDesc]
  | cons y ys ih =>
    rw [List.pairwise_cons] at h
    rw [insertTagDesc]
    by_cases hxy : x.2 ≤ y.2
    · rw [if_pos hxy, List.pairwise_cons]
      constructor
      · intro a ha
        rcases (mem_insertTagDesc x a ys).mp ha with h1 | h1
        · rw [h1]; exact hxy
        · exact h.1 a h1
      · exact ih h.2
    · rw [if_neg hxy, List.pairwise_cons]
      constructor
      · intro a ha
        rcases List.mem_cons.mp ha with h1 | h1
        · rw [h1]; omega
        · have := h.1 a h1
          omega
      · exact List.pairwise_cons.mpr h

theorem foldl_insertTagDesc_sorted (l acc : List (String × Nat))
    (h : List.Pairwise (fun a b => b.2 ≤ a.2) acc) :
    List.Pairwise (fun a b => b.2 ≤ a.2)
      (l.foldl (fun acc x => insertTagDesc x acc) acc) := by
  induction l generalizing acc with
  | nil => exact h
  | cons x xs ih =>
    rw [List.foldl_cons]
    exact ih _ (insertTagDesc_sorted x acc h)

/-- The stable descending sort is sorted descending by count. -/
theorem sortByCountDesc_sorted (l : List (String × Nat)) :
    List.Pairwise (fun a b => b.2 ≤ a.2) (sortByCountDesc l) :=
  foldl_insertTagDesc_sorted l [] List.Pairwise.nil

/-- Inserting into a sorted list puts the new entry after every existing
entry of the same count: on each count class, insertion appends. -/
theorem insertTagDesc_filter (x : String × Nat) (l : List (String × Nat))
    (h : List.Pairwise (fun a b => b.2 ≤ a.2) l) (c : Nat) :
    (insertTagDesc x l).filter (fun e => e.2 = c) =
      l.filter (fun e => e.2 = c) ++ (if x.2 = c then [x] else []) := by
  induction l with
  | nil => by_cases hc : x.2 = c <;> simp [insertTagDesc, hc]
  | cons y ys ih =>
    rw [List.pairwise_cons] at h
    rw [insertTagDesc]
    by_cases hxy : x.2 ≤ y.2
    · rw [if_pos hxy, List.filter_cons, List.filter_cons, ih h.2]
      by_cases hyc : y.2 = c
      · simp [hyc]
      · simp [hyc]
    · rw [if_neg hxy, List.filter_cons]
      by_cases hxc : x.2 = c
      · have hnil : (y :: ys).filter (fun e => e.2 = c) = [] := by
          rw [List.filter_eq_nil_iff]
          intro a ha
          have ha2 : a.2 ≤ y.2 := by
            rcases List.mem_cons.mp ha with h1 | h1
            · rw [h1]
            · exact h.1 a h1
          simp only [decide_eq_true_eq]
          omega
        rw [hnil]
        simp [hxc, hnil]
      · simp [hxc]

theorem foldl_insertTagDesc_filter (l acc : List (String × Nat))
    (h : List.Pairwise (fun a b => b.2 ≤ a.2) acc) (c : Nat) :
    ((l.foldl (fun acc x => insertTagDesc x acc) acc).filter (fun e => e.2 = c)) =
      acc.filter (fun e => e.2 = c) ++ l.filter (fun e => e.2 = c) := by
  induction l generalizing acc with
  | nil => simp
  | cons x xs ih =>
    rw [List.foldl_cons, ih _ (insertTagDesc_sorted x acc h),
      insertTagDesc_filter x acc h c, List.filter_cons]
    by_cases hxc : x.2 = c
    · simp [hxc]
    · simp [hxc]

/-- Stability of the sort: each count class keeps its input order. -/
theorem sortByCountDesc_filter (l : List (String × Nat)) (c : Nat) :
    (sortByCountDesc l).filter (fun e => e.2 = c) =
      l.filter (fun e => e.2 = c) := by
  have h := foldl_insertTagDesc_filter l [] List.Pairwise.nil c
  simpa [sortByCountDesc] using h

/-! ### C8 -/

/-- Keys of the canonical tag-count list are tags of the stream. -/
theorem firstSeenCounts_keys (l : List String) (e : String × Nat)
    (he : e ∈ firstSeenCounts l) : e.1 ∈ l := by
  unfold firstSeenCounts at he
  obtain ⟨t, ht, hte⟩ := List.mem_map.mp he
  have h1 : e.1 = t := by rw [← hte]
  rw [h1]
  exact firstSeen_subset l t ht

/-- When no key is a canonical array index, `Object.entries` enumerates the
own properties in insertion order. -/
theorem jsEntries_of_no_index (m : List (String × Nat))
    (h : ∀ e ∈ m, isArrayIndexKey e.1 = false) : jsEntries m = m := by
  have h1 : m.filter (fun e => isArrayIndexKey e.1) = [] := by
    rw [List.filter_eq_nil_iff]
    intro a ha
    simp [h a ha]
  have h2 : m.filter (fun e => !isArrayIndexKey e.1) = m := by
    rw [List.filter_eq_self]
    intro a ha
    simp [h a ha]
  unfold jsEntries
  rw [h1, h2]
  rfl

/-- A score whose tags contain the array-index string `"42"` after the
ordinary tag `"apple"`. -/
def numericTagScore : PromptScore :=
  { clarity := 5
    «structure» := 5
    usefulness := 5
    overall := 5
    reasoning := { clarity := "a", «structure» := "b", usefulness := "c", overall := "d" }
    suggestedTags := ["apple", "42"]
    category := Category.other
    complexity := Complexity.intermediate
    estimatedTokens := none }

/-- C8 counterexample: `Object.entries` enumerates canonical array-index
keys first in ascending numeric order, before insertion-ordered string keys,
so for the tag stream `["apple", "42"]` (both counts 1) the stable sort
receives `[("42", 1), ("apple", 1)]` and the tie is NOT broken by
first-encountered order: `"apple"` was encountered first yet comes second,
refuting the claim as stated. -/
theorem C8_counterexample_numeric_tag_order :
    (calculateScoringStats [numericTagScore]).topTags =
      [("42", 1), ("apple", 1)] ∧
    firstSeen (allTags [numericTagScore]) = ["apple", "42"] ∧
    (calculateScoringStats [numericTagScore]).topTags ≠
      (sortByCountDesc (firstSeenCounts (allTags [numericTagScore]))).take 20 := by
  have h1 : (calculateScoringStats [numericTagScore]).topTags =
      [("42", 1), ("apple", 1)] := by decide
  have h2 : firstSeen (allTags [numericTagScore]) = ["apple", "42"] := by
    simp [allTags, numericTagScore, firstSeen]
  have h3 : firstSeenCounts (allTags [numericTagScore]) =
      [("apple", 1), ("42", 1)] := by
    unfold firstSeenCounts
    rw [h2]
    simp [allTags, numericTagScore]
  refine ⟨h1, h2, ?_⟩
  rw [h1, h3]
  decide

/-- C8 (amended): for every collection whose tags are neither canonical
array-index strings nor `Object.prototype` property names (outside this
domain the counter object reorders, corrupts or drops entries, see the
counterexample), `topTags` is computed by flattening every item's
`suggestedTags`, counting occurrences of each tag (entries arise in
first-encountered order), sorting descending by count with a stable sort
(ties keep first-encountered order: on each count class the sorted list
preserves the first-seen order), and keeping at most the top 20 entries.
The prototype-name exclusion marks the domain on which the numeric counter
model is faithful; the array-index exclusion is what the enumeration order
forces. -/
theorem C8_topTags_count_sort_take_safe_tags (scores : List PromptScore)
    (htags : ∀ t ∈ allTags scores,
      isArrayIndexKey t = false ∧ t ∉ objectProtoKeys) :
    (calculateScoringStats scores).topTags =
      (sortByCountDesc (firstSeenCounts (allTags scores))).take 20 ∧
    (calculateScoringStats scores).topTags.length ≤ 20 ∧
    List.Pairwise (fun a b => b.2 ≤ a.2) (calculateScoringStats scores).topTags ∧
    (∀ c : Nat,
      (sortByCountDesc (firstSeenCounts (allTags scores))).filter
          (fun e => e.2 = c) =
        (firstSeenCounts (allTags scores)).filter (fun e => e.2 = c)) := by
  have hEq : (calculateScoringStats scores).topTags =
      (sortByCountDesc (firstSeenCounts (allTags scores))).take 20 := by
    by_cases h0 : scores.length = 0
    · have hnil : scores = [] := List.length_eq_zero.mp h0
      subst hnil
      have h1 : allTags ([] : List PromptScore) = [] := by simp [allTags]
      have h2 : firstSeenCounts [] = [] := by simp [firstSeenCounts, firstSeen]
      rw [h1, h2]
      rfl
    · have ht : (calculateScoringStats scores).topTags =
          (sortByCountDesc (jsEntries (scores.foldl tagStep []))).take 20 := by
        unfold calculateScoringStats
        rw [if_neg h0]
      have hje : jsEntries (firstSeenCounts (allTags scores)) =
          firstSeenCounts (allTags scores) := by
        apply jsEntries_of_no_index
        intro e he
        exact (htags e.1 (firstSeenCounts_keys (allTags scores) e he)).1
      rw [ht, foldl_tagStep_eq, foldl_bump_nil, hje]
  refine ⟨hEq, ?_, ?_, ?_⟩
  · rw [hEq]
    exact List.length_take_le 20 _
  · rw [hEq]
    exact List.Pairwise.sublist (List.take_sublist 20 _) (sortByCountDesc_sorted _)
  · intro c
    exact sortByCountDesc_filter _ c

/-- Witness for the amended C8 on a concrete collection with safe tags. -/
theorem C8_topTags_count_sort_take_safe_tags_witness :
    (calculateScoringStats [sampleScore]).topTags =
      (sortByCountDesc (firstSeenCounts (allTags [sampleScore]))).take 20 :=
  (C8_topTags_count_sort_take_safe_tags [sampleScore] (by decide)).1

end AiEvaluator
